import Mathlib

/-!
Shallow embedding of the CopIt scraper-to-catalog pipeline.

Sources embedded:
- src/server/src/scrapers/backmarket.js  (BackmarketScraper: scrapeProduct,
  scrapeCategory, scrapeAndSave, close)
- src/server/src/scrapers/index.js       (scrapeNewegg save loop)
- src/server/src/models/product.js       (compound unique index on
  source and sourceId)

JavaScript string and number semantics are modelled explicitly: a DOM text
that may be absent is an Option String, a parsed price is a JsNum that can
be null, NaN or a rational, and the truthiness tests the code performs are
Boolean functions on those types.
-/

namespace CopIt

/-- An exact decimal number mant / 10 ^ exp, the value a JS parseFloat of a
digits-and-dot string denotes. Kept unnormalised so that equality and zero
tests are structural and kernel decidable; toRat gives the numeric value. -/
structure Decimal where
  mant : Nat
  exp : Nat
deriving DecidableEq

/-- Numeric value of a Decimal. -/
def Decimal.toRat (d : Decimal) : ℚ :=
  (d.mant : ℚ) / (10 : ℚ) ^ d.exp

/-- A JavaScript numeric value as produced by parseFloat based extraction:
null when the DOM element is absent, NaN when parsing fails, or a number. -/
inductive JsNum where
  | null
  | nan
  | num (d : Decimal)
deriving DecidableEq

/-- Numeric value of a list of decimal digit characters, most significant first. -/
def digitsVal (cs : List Char) : Nat :=
  cs.foldl (fun acc c => 10 * acc + (c.toNat - Char.toNat (Char.ofNat 48))) 0

/-- The JS regex replace of [^0-9.] by the empty string: keep only decimal
digits and the decimal point. -/
def stripNonNumeric (s : String) : String :=
  String.mk (s.toList.filter (fun c => c.isDigit || c == '.'))

/-- JS String.prototype.trim: drop whitespace from both ends. Implemented on
the character list so that the kernel can evaluate it. -/
def jsTrim (s : String) : String :=
  String.mk (((s.toList.dropWhile Char.isWhitespace).reverse.dropWhile Char.isWhitespace).reverse)

/-- Split a character list at every occurrence of the separator character. -/
def splitOnChar (sep : Char) (cs : List Char) : List (List Char) :=
  cs.foldr (fun c acc =>
    match acc with
    | [] => [[c]]
    | g :: gs => if c == sep then [] :: (g :: gs) else (c :: g) :: gs) [[]]

/-- JS String.prototype.split with a one character separator, which is the
only form the scrapers use. -/
def jsSplit (sep : Char) (s : String) : List String :=
  (splitOnChar sep s.toList).map String.mk

/-- JS parseFloat restricted to strings made of digits and dots, which is the
shape stripNonNumeric produces: parse the longest prefix of the form
digits [ . digits ]; none models NaN. -/
def jsParseFloat (s : String) : Option Decimal :=
  let cs := s.toList
  let intPart := cs.takeWhile Char.isDigit
  let rest := cs.dropWhile Char.isDigit
  match rest with
  | '.' :: rest2 =>
    let fracPart := rest2.takeWhile Char.isDigit
    if intPart.isEmpty && fracPart.isEmpty then none
    else some ⟨digitsVal intPart * 10 ^ fracPart.length + digitsVal fracPart, fracPart.length⟩
  | _ => if intPart.isEmpty then none else some ⟨digitsVal intPart, 0⟩

/-- JS truthiness of an optional string: undefined and the empty string are falsy. -/
def strTruthy (o : Option String) : Bool :=
  match o with
  | none => false
  | some s => s != ""

/-- JS truthiness of a JsNum: null, NaN and 0 are falsy. A Decimal is zero
exactly when its mantissa is zero. -/
def numTruthy (v : JsNum) : Bool :=
  match v with
  | .null => false
  | .nan => false
  | .num d => d.mant != 0

/-- JS test v > 0 on a JsNum: false for null and NaN. A Decimal is positive
exactly when its mantissa is positive. -/
def numGtZero (v : JsNum) : Bool :=
  match v with
  | .num d => 0 < d.mant
  | _ => false

/-- Abstraction of a product detail page: the text content of each element the
extraction script queries, none when the selector finds no element, and the
resolved src of each product image element. -/
structure RawPage where
  titleText : Option String
  priceText : Option String
  originalPriceText : Option String
  descriptionText : Option String
  imageSrcs : List String
  brandText : Option String
  specTexts : List String
  hasAddToCart : Bool
deriving DecidableEq

/-- getPrice from backmarket.js: null when the price element is absent,
otherwise parseFloat of the stripped inner text. -/
def getPrice (el : Option String) : JsNum :=
  match el with
  | none => .null
  | some t =>
    match jsParseFloat (stripNonNumeric t) with
    | none => .nan
    | some q => .num q

/-- getImages from backmarket.js: push each image src that is truthy, in page order. -/
def getImages (srcs : List String) : List String :=
  srcs.foldl (fun acc s => if s != "" then acc ++ [s] else acc) []

/-- One entry of the specs list: split the inner text on the colon, trim both
sides, and keep the pair only when key and value are both truthy. -/
def parseSpecLine (s : String) : Option (String × String) :=
  match (jsSplit ':' s).map jsTrim with
  | k :: v :: _ => if k != "" && v != "" then some (k, v) else none
  | _ => none

/-- JS Map.set on an association list: overwrite in place when the key exists,
append otherwise, preserving insertion order. -/
def mapSet (m : List (String × String)) (k v : String) : List (String × String) :=
  if m.any (fun kv => kv.1 == k) then m.map (fun kv => if kv.1 == k then (k, v) else kv)
  else m ++ [(k, v)]

/-- getSpecs from backmarket.js: fold the spec list entries into a map,
silently skipping malformed entries. -/
def getSpecs (lines : List String) : List (String × String) :=
  lines.foldl (fun m line =>
    match parseSpecLine line with
    | some kv => mapSet m kv.1 kv.2
    | none => m) []

/-- The record built inside page.evaluate by BackmarketScraper.scrapeProduct,
before the mandatory field check and the source fields are added. -/
structure RawProduct where
  name : Option String
  price : JsNum
  originalPrice : JsNum
  description : Option String
  images : List String
  brand : Option String
  specifications : List (String × String)
  stock : Nat
deriving DecidableEq

/-- The page.evaluate body of BackmarketScraper.scrapeProduct. -/
def extractProduct (p : RawPage) : RawProduct :=
  { name := p.titleText.map jsTrim
    price := getPrice p.priceText
    originalPrice := getPrice p.originalPriceText
    description := p.descriptionText.map jsTrim
    images := getImages p.imageSrcs
    brand := p.brandText.map jsTrim
    specifications := getSpecs p.specTexts
    stock := if p.hasAddToCart then 1 else 0 }

/-- The URL split of backmarket.js: url.split on slash, take the last piece,
split that on the question mark and take the first piece. -/
def lastPathSegment (url : String) : String :=
  (jsSplit '?' ((jsSplit '/' url).getLastD "")).headD ""

/-- A listing as returned by BackmarketScraper.scrapeProduct after the source
fields are attached. -/
structure ScrapedListing where
  name : Option String
  price : JsNum
  originalPrice : JsNum
  description : Option String
  images : List String
  brand : Option String
  specifications : List (String × String)
  stock : Nat
  source : String
  sourceUrl : String
  sourceId : String
deriving DecidableEq

/-- The error message thrown by scrapeProduct when a mandatory field is falsy. -/
def requiredMsg : String := "Required product data missing"

/-- BackmarketScraper.scrapeProduct on a loaded page: throw when the extracted
name or price is falsy, otherwise attach source, sourceUrl and sourceId. -/
def scrapeProduct (page : RawPage) (url : String) : Except String ScrapedListing :=
  let p := extractProduct page
  if !(strTruthy p.name) || !(numTruthy p.price) then .error requiredMsg
  else .ok
    { name := p.name
      price := p.price
      originalPrice := p.originalPrice
      description := p.description
      images := p.images
      brand := p.brand
      specifications := p.specifications
      stock := p.stock
      source := "Backmarket"
      sourceUrl := url
      sourceId := lastPathSegment url }

/-! ## Category walker (BackmarketScraper.scrapeCategory) -/

/-- The deterministic environment a run observes: the detail page served at
each URL, which navigations fail, and the anchor hrefs of each category
listing page. -/
structure World where
  pageOf : String → RawPage
  navFails : String → Bool
  catAnchors : String → List String
  catNavFails : String → Bool

/-- Error reported when navigating to a product page throws. -/
def navErrMsg : String := "product navigation failed"

/-- Error reported when navigating to a category listing page throws. -/
def catNavErrMsg : String := "category navigation failed"

/-- scrapeProduct including the page navigation that can throw. -/
def scrapeProductRun (w : World) (url : String) : Except String ScrapedListing :=
  if w.navFails url then .error navErrMsg else scrapeProduct (w.pageOf url) url

/-- The link collection loop of scrapeCategory: push each truthy href while
fewer than limit links have been collected. -/
def collectLinks (hrefs : List String) (limit : Nat) : List String :=
  hrefs.foldl (fun links h => if links.length < limit && h != "" then links ++ [h] else links) []

/-- The product detail URLs a category walk will attempt, in order. -/
def attemptedLinks (w : World) (catUrl : String) (limit : Nat) : List String :=
  collectLinks (w.catAnchors catUrl) limit

/-- The per-link loop of scrapeCategory: attempt each link once, keep the
successfully extracted listings, and continue past failures. -/
def walkLinks (w : World) (links : List String) : List ScrapedListing :=
  links.foldl (fun acc link =>
    match scrapeProductRun w link with
    | .ok p => acc ++ [p]
    | .error _ => acc) []

/-- BackmarketScraper.scrapeCategory: rethrows when the listing page itself
cannot be walked, otherwise returns the extracted listings. -/
def scrapeCategory (w : World) (catUrl : String) (limit : Nat) : Except String (List ScrapedListing) :=
  if w.catNavFails catUrl then .error catNavErrMsg
  else .ok (walkLinks w (attemptedLinks w catUrl limit))

/-! ## Catalog store and find-one-and-upsert (models/product.js plus the
Mongo findOneAndUpdate calls) -/

/-- A persisted catalog record, restricted to the fields the scrapers read or
write. The newegg path never writes sourceId, so it is optional. -/
structure CatalogProduct where
  name : Option String
  price : JsNum
  originalPrice : JsNum
  description : Option String
  images : List String
  brand : Option String
  specifications : List (String × String)
  stock : Nat
  source : String
  sourceUrl : Option String
  sourceId : Option String
  category : String
  updatedAt : Nat
deriving DecidableEq

/-- The catalog collection, in insertion order. -/
abbrev Store := List CatalogProduct

/-- The document a pure upsert insert starts from before the update is applied. -/
def blankProduct : CatalogProduct :=
  { name := none
    price := .null
    originalPrice := .null
    description := none
    images := []
    brand := none
    specifications := []
    stock := 0
    source := ""
    sourceUrl := none
    sourceId := none
    category := ""
    updatedAt := 0 }

/-- Mongo findOneAndUpdate with upsert true, success semantics: apply the
update to the first record the filter accepts, or append a new document built
from the update when nothing matches. Rejected writes (validation, the unique
compound index on source and sourceId from models/product.js line 107) are
modelled separately by the per-listing failure knob of the driver; the index
itself appears as the key uniqueness invariant proved preserved below. -/
def findOneAndUpdate (flt : CatalogProduct → Bool)
    (apply : CatalogProduct → CatalogProduct) : Store → Store
  | [] => [apply blankProduct]
  | r :: rs => if flt r then apply r :: rs else r :: findOneAndUpdate flt apply rs

/-- The filter of the Backmarket save call: source fixed to the Backmarket tag
and sourceId equal to the sourceId of the scraped listing. -/
def bmMatches (sid : String) (r : CatalogProduct) : Bool :=
  r.source == "Backmarket" && r.sourceId == some sid

/-- The update document of the Backmarket save call: the whole scraped listing
spread into the record, plus the owning category name and a fresh updatedAt. -/
def bmApply (l : ScrapedListing) (catName : String) (now : Nat)
    (r : CatalogProduct) : CatalogProduct :=
  { r with
    name := l.name
    price := l.price
    originalPrice := l.originalPrice
    description := l.description
    images := l.images
    brand := l.brand
    specifications := l.specifications
    stock := l.stock
    source := l.source
    sourceUrl := some l.sourceUrl
    sourceId := some l.sourceId
    category := catName
    updatedAt := now }

/-- The Product.findOneAndUpdate call of BackmarketScraper.scrapeAndSave. -/
def bmSync (st : Store) (l : ScrapedListing) (catName : String) (now : Nat) : Store :=
  findOneAndUpdate (bmMatches l.sourceId) (bmApply l catName now) st

/-- Modelled from the spec, section 4.3, for refinement comparison only:
a find-or-create against the store keyed on the pair of source tag and
source-native identifier. -/
def specNaturalKeySync (st : Store) (src sid : String)
    (apply : CatalogProduct → CatalogProduct) : Store :=
  findOneAndUpdate (fun r => r.source == src && r.sourceId == some sid) apply st

/-! ## Newegg scraper save path (scrapeNewegg in scrapers/index.js) -/

/-- The stock sub-record built in the Newegg page.evaluate from the stock
status element: its text and its parsed data-stock attribute. -/
structure NeweggStock where
  status : String
  quantity : Nat
deriving DecidableEq

/-- A product record as returned by the Newegg page.evaluate. The rating,
shipping and discount sub-records are only ever interpolated into the saved
description string, so each is modelled by the rendered line it contributes
to that template. -/
structure NeweggProduct where
  name : Option String
  price : JsNum
  image : Option String
  url : Option String
  ratingLine : String
  shippingLine : String
  discountLine : String
  stock : Option NeweggStock
  category : Option String
  brand : Option String
deriving DecidableEq

/-- The Newegg price computation: parseFloat of the stripped price text with
the JS fallback of the string zero when the element is absent or the stripped
text is empty. An absent element therefore parses to zero, not to null. -/
def neweggParsePrice (priceEl : Option String) : JsNum :=
  let raw := match priceEl with
    | none => "0"
    | some t =>
      let s := stripNonNumeric (jsTrim t)
      if s == "" then "0" else s
  match jsParseFloat raw with
  | none => .nan
  | some d => .num d

/-- The filter at the end of the Newegg page.evaluate: keep a product only
when its name is truthy and its price is greater than zero. -/
def neweggEvaluateFilter (ps : List NeweggProduct) : List NeweggProduct :=
  ps.filter (fun p => strTruthy p.name && numGtZero p.price)

/-- JS x or default on an optional string: the default when absent or empty. -/
def jsOrStr (o : Option String) (d : String) : String :=
  match o with
  | none => d
  | some s => if s == "" then d else s

/-- The description template the Newegg save assembles from the record. -/
def neweggDescription (p : NeweggProduct) : String :=
  "Brand: " ++ jsOrStr p.brand "Unknown"
    ++ "\nCategory: " ++ jsOrStr p.category "Unknown"
    ++ "\nRating: " ++ p.ratingLine
    ++ "\nShipping: " ++ p.shippingLine
    ++ "\nStock: " ++ (match p.stock with
      | some s => if s.status == "" then "Unknown" else s.status
      | none => "Unknown")
    ++ "\nDiscount: " ++ p.discountLine

/-- The save guard of the Newegg loop: name, price and image all truthy. -/
def neweggGuard (p : NeweggProduct) : Bool :=
  strTruthy p.name && numTruthy p.price && strTruthy p.image

/-- The filter of the Newegg save call: the record whose sourceUrl equals the
product URL. No source tag or source-native identifier appears in it. -/
def neweggMatches (p : NeweggProduct) (r : CatalogProduct) : Bool :=
  r.sourceUrl == p.url

/-- The update document of the Newegg save call. It never writes sourceId;
the updatedAt stamp models the schema timestamps option, the code writing an
extra lastUpdated field outside the schema. -/
def neweggApply (p : NeweggProduct) (now : Nat) (r : CatalogProduct) : CatalogProduct :=
  { r with
    name := p.name
    price := p.price
    images := [p.image.getD ""]
    source := "newegg"
    sourceUrl := p.url
    description := some (neweggDescription p)
    category := jsOrStr p.category "Other"
    brand := some (jsOrStr p.brand "Unknown")
    stock := match p.stock with
      | some s => s.quantity
      | none => 0
    updatedAt := now }

/-- One iteration of the Newegg save loop: guarded findOneAndUpdate keyed on
sourceUrl alone. -/
def neweggSaveOne (st : Store) (p : NeweggProduct) (now : Nat) : Store :=
  if neweggGuard p then findOneAndUpdate (neweggMatches p) (neweggApply p now) st else st

/-! ## Scraper driver (BackmarketScraper.scrapeAndSave) -/

/-- Observable driver events, used to state when the browser process is
closed, which categories are walked, and for which listings the persistence
call is invoked. -/
inductive Event where
  | browserLaunch
  | walkCat (name : String)
  | syncCall (url : String)
  | syncErr (name : Option String)
  | runErr
  | closeCall
  | browserClose
deriving DecidableEq

/-- One fixed category of the Backmarket driver. -/
structure Category where
  name : String
  url : String

/-- The fixed category list from the BackmarketScraper constructor. -/
def categories : List Category :=
  [{ name := "Smartphones", url := "/us/en-us/c/smartphones" },
   { name := "Laptops", url := "/us/en-us/c/laptops" },
   { name := "Tablets", url := "/us/en-us/c/tablets" }]

/-- A full run environment: the scraping world, whether the browser launch
throws, and which listings the store rejects when saved. -/
structure DriverWorld where
  world : World
  launchFails : Bool
  saveFails : ScrapedListing → Bool

/-- The store after the inner save loop of scrapeAndSave over one batch:
a rejected save is caught and skipped, every other listing is upserted. -/
def saveBatchStore (dw : DriverWorld) (catName : String) (now : Nat)
    (ps : List ScrapedListing) (st : Store) : Store :=
  ps.foldl (fun st2 p => if dw.saveFails p then st2 else bmSync st2 p catName now) st

/-- The events of the inner save loop: the persistence call is invoked for
every listing of the batch, and a rejection is additionally logged with the
product name. -/
def saveBatchEvents (dw : DriverWorld) (ps : List ScrapedListing) : List Event :=
  ps.foldl (fun evs p =>
    evs ++ (if dw.saveFails p then [.syncCall p.sourceUrl, .syncErr p.name]
            else [.syncCall p.sourceUrl])) []

/-- The per-category loop of scrapeAndSave. A category whose walk throws ends
the loop: the exception propagates to the try ... catch that surrounds the
whole loop, so the remaining categories are not visited. The Boolean records
whether the loop was aborted that way. -/
def runCats (dw : DriverWorld) (now : Nat) :
    List Category → Store → List Event × Store × Bool
  | [], st => ([], st, false)
  | c :: rest, st =>
    match scrapeCategory dw.world c.url 10 with
    | .error _ => ([Event.walkCat c.name], st, true)
    | .ok ps =>
      let st2 := saveBatchStore dw c.name now ps st
      let next := runCats dw now rest st2
      (Event.walkCat c.name :: (saveBatchEvents dw ps ++ next.1), next.2.1, next.2.2)

/-- BackmarketScraper.scrapeAndSave: launch the browser, loop the fixed
categories, log a run error when the loop threw, and always enter close in
the finally block. close only invokes the underlying browser close when a
browser was launched. -/
def scrapeAndSave (dw : DriverWorld) (now : Nat) (st : Store) : List Event × Store :=
  if dw.launchFails then ([Event.runErr, Event.closeCall], st)
  else
    let res := runCats dw now categories st
    (Event.browserLaunch ::
      (res.1 ++ (if res.2.2 then [Event.runErr] else []) ++ [Event.closeCall, Event.browserClose]),
     res.2.1)

/-! ## Derived notions used by the statements -/

/-- Number of extraction attempts a category walk makes: walkLinks runs one
scrapeProductRun per collected link. -/
def attemptsCount (w : World) (catUrl : String) (limit : Nat) : Nat :=
  (attemptedLinks w catUrl limit).length

/-- Whether the store holds a record under the Backmarket natural key sid. -/
def hasBmKey (st : Store) (sid : String) : Bool :=
  st.any (fun r => bmMatches sid r)

/-- The category names logged by a driver trace, in order. -/
def walked (evs : List Event) : List String :=
  evs.filterMap (fun e =>
    match e with
    | .walkCat n => some n
    | _ => none)

/-! ## Concrete sample inputs used by witnesses and counterexamples -/

/-- A well formed product detail page whose title is the given name. -/
def pgGood (nm : String) : RawPage :=
  { titleText := some nm
    priceText := some "$99.99"
    originalPriceText := none
    descriptionText := none
    imageSrcs := ["https://img.example/1.jpg"]
    brandText := none
    specTexts := []
    hasAddToCart := true }

/-- A page with name and price but no product images. -/
def pgNoImages : RawPage :=
  { pgGood "Phone X" with imageSrcs := [] }

/-- A page whose primary price element is missing. -/
def pgNoPrice : RawPage :=
  { pgGood "Phone Y" with priceText := none }

/-- A page whose title element is missing. -/
def pgNoName : RawPage :=
  { pgGood "unused" with titleText := none }

/-- A page whose price text parses to exactly zero. -/
def pgZeroPrice : RawPage :=
  { pgGood "Phone Z" with priceText := some "$0.00" }

/-- URL of the no-image detail page. -/
def uNoImg : String := "https://www.backmarket.com/us/en-us/p/pni"

/-- The listing scrapeProduct extracts from pgNoImages at uNoImg. -/
def lNoImg : ScrapedListing :=
  { name := some "Phone X"
    price := .num ⟨9999, 2⟩
    originalPrice := .null
    description := none
    images := []
    brand := none
    specifications := []
    stock := 1
    source := "Backmarket"
    sourceUrl := uNoImg
    sourceId := "pni" }

/-- The three driver categories as single definitions. -/
def catSmartphones : Category := { name := "Smartphones", url := "/us/en-us/c/smartphones" }

/-- The Laptops driver category. -/
def catLaptops : Category := { name := "Laptops", url := "/us/en-us/c/laptops" }

/-- The Tablets driver category. -/
def catTablets : Category := { name := "Tablets", url := "/us/en-us/c/tablets" }

/-- A world where every product page is good, the Laptops listing page fails
to load, Smartphones offers product p1 and Tablets offers product p3. -/
def w4 : World :=
  { pageOf := fun u => pgGood u
    navFails := fun _ => false
    catAnchors := fun u =>
      if u == "/us/en-us/c/smartphones" then ["p1"]
      else if u == "/us/en-us/c/tablets" then ["p3"] else []
    catNavFails := fun u => u == "/us/en-us/c/laptops" }

/-- Driver run over w4 with no launch or save failures. -/
def dw4 : DriverWorld := { world := w4, launchFails := false, saveFails := fun _ => false }

/-- The listing the Tablets walk of w4 would extract. -/
def pTab : ScrapedListing :=
  { name := some "p3"
    price := .num ⟨9999, 2⟩
    originalPrice := .null
    description := none
    images := ["https://img.example/1.jpg"]
    brand := none
    specifications := []
    stock := 1
    source := "Backmarket"
    sourceUrl := "p3"
    sourceId := "p3" }

/-- A world exercising every contained failure class: one product navigation
fails, the Laptops listing page fails, and one save is rejected. -/
def w5 : World :=
  { pageOf := fun u => pgGood u
    navFails := fun u => u == "bad"
    catAnchors := fun u => if u == "/us/en-us/c/smartphones" then ["p1", "bad"] else []
    catNavFails := fun u => u == "/us/en-us/c/laptops" }

/-- Driver run over w5 where the store rejects the save of p1. -/
def dw5 : DriverWorld :=
  { world := w5, launchFails := false, saveFails := fun p => p.sourceId == "p1" }

/-- A world where the Smartphones listing page offers one product whose
detail page has no price element. -/
def w7 : World :=
  { pageOf := fun u => if u == "badp" then pgNoPrice else pgGood u
    navFails := fun _ => false
    catAnchors := fun u => if u == "/us/en-us/c/smartphones" then ["badp"] else []
    catNavFails := fun _ => false }

/-- Driver run over w7 with no launch or save failures. -/
def dw7 : DriverWorld := { world := w7, launchFails := false, saveFails := fun _ => false }

/-- A world whose Smartphones listing page carries the no-image product. -/
def wNoImg : World :=
  { pageOf := fun _ => pgNoImages
    navFails := fun _ => false
    catAnchors := fun u => if u == "/us/en-us/c/smartphones" then [uNoImg] else []
    catNavFails := fun _ => false }

/-- Driver run over wNoImg with no launch or save failures. -/
def dwNoImg : DriverWorld :=
  { world := wNoImg, launchFails := false, saveFails := fun _ => false }

/-- A ten-anchor category listing page for the walk bound check. -/
def wTen : World :=
  { pageOf := fun u => pgGood u
    navFails := fun _ => false
    catAnchors := fun _ => ["u1", "u2", "u3", "u4", "u5", "u6", "u7", "u8", "u9", "u10"]
    catNavFails := fun _ => false }

/-- A Backmarket shaped listing with the given natural key and price. -/
def mkListing (sid : String) (d : Decimal) : ScrapedListing :=
  { name := some "Listing"
    price := .num d
    originalPrice := .null
    description := none
    images := ["https://img.example/1.jpg"]
    brand := none
    specifications := []
    stock := 1
    source := "Backmarket"
    sourceUrl := "https://www.backmarket.com/us/en-us/p/" ++ sid
    sourceId := sid }

/-- First upsert input of the idempotence witness. -/
def bmL1 : ScrapedListing := mkListing "A" ⟨100, 0⟩

/-- Second upsert input of the idempotence witness, same key, other price. -/
def bmL2 : ScrapedListing := mkListing "A" ⟨200, 0⟩

/-- Batch members for the partial failure witness. -/
def bmLA : ScrapedListing := mkListing "KA" ⟨10, 0⟩

/-- Second batch member, whose save the store will reject. -/
def bmLB : ScrapedListing := mkListing "KB" ⟨20, 0⟩

/-- Third batch member, saved after the rejection. -/
def bmLC : ScrapedListing := mkListing "KC" ⟨30, 0⟩

/-- Driver knobs where exactly the save of bmLB fails. -/
def dw6 : DriverWorld :=
  { world := wTen, launchFails := false, saveFails := fun p => p.sourceId == "KB" }

/-- A catalog record already stored under the natural key newegg N123 but an
older source URL. -/
def rec0 : CatalogProduct :=
  { blankProduct with
    name := some "GPU old"
    price := .num ⟨90, 0⟩
    source := "newegg"
    sourceUrl := some "https://www.newegg.com/p/N123?ref=old"
    sourceId := some "N123" }

/-- A Newegg product whose URL final path segment is N123 but whose full URL
differs from the stored record. -/
def pNew : NeweggProduct :=
  { name := some "GPU"
    price := .num ⟨100, 0⟩
    image := some "https://img.newegg/1.jpg"
    url := some "https://www.newegg.com/p/N123"
    ratingLine := "N/A (0 reviews)"
    shippingLine := "N/A - N/A"
    discountLine := "None"
    stock := none
    category := none
    brand := none }

/-! ## Helper lemmas about the store upsert -/

theorem fOAU_countP (flt : CatalogProduct → Bool) (apply : CatalogProduct → CatalogProduct)
    (ha : ∀ r, flt (apply r) = true) :
    ∀ st : Store, st.countP flt ≤ 1 → (findOneAndUpdate flt apply st).countP flt = 1 := by
  intro st
  induction st with
  | nil => intro _; simp [findOneAndUpdate, List.countP_cons, ha]
  | cons r rs ih =>
    intro h
    by_cases hr : flt r
    · have hrs : rs.countP flt = 0 := by
        simp [List.countP_cons, hr] at h
        exact List.countP_eq_zero.mpr (fun a ha => by simp [h a ha])
      simp [findOneAndUpdate, hr, List.countP_cons, ha, hrs]
    · have h2 : rs.countP flt ≤ 1 := by
        simpa [List.countP_cons, hr] using h
      simp [findOneAndUpdate, hr, List.countP_cons, ih h2]

theorem fOAU_matching (flt : CatalogProduct → Bool) (apply : CatalogProduct → CatalogProduct)
    (P : CatalogProduct → Prop) (hP : ∀ r, P (apply r)) :
    ∀ st : Store, st.countP flt ≤ 1 →
      ∀ x ∈ findOneAndUpdate flt apply st, flt x = true → P x := by
  intro st
  induction st with
  | nil =>
    intro _ x hx _
    simp [findOneAndUpdate] at hx
    subst hx
    exact hP _
  | cons r rs ih =>
    intro h x hx hfx
    by_cases hr : flt r
    · simp [findOneAndUpdate, hr] at hx
      rcases hx with hx | hx
      · subst hx; exact hP _
      · exfalso
        have hrs : rs.countP flt = 0 := by
          simp [List.countP_cons, hr] at h
          exact List.countP_eq_zero.mpr (fun a ha => by simp [h a ha])
        have := List.countP_eq_zero.mp hrs x hx
        simp [hfx] at this
    · simp [findOneAndUpdate, hr] at hx
      rcases hx with hx | hx
      · subst hx; simp [hfx] at hr
      · have h2 : rs.countP flt ≤ 1 := by
          simpa [List.countP_cons, hr] using h
        exact ih h2 x hx hfx

theorem fOAU_establishes (flt : CatalogProduct → Bool) (apply : CatalogProduct → CatalogProduct)
    (q : CatalogProduct → Bool) (hq : ∀ r, q (apply r) = true) :
    ∀ st : Store, (findOneAndUpdate flt apply st).any q = true := by
  intro st
  induction st with
  | nil => simp [findOneAndUpdate, hq]
  | cons r rs ih =>
    by_cases hr : flt r
    · simp [findOneAndUpdate, hr, hq]
    · simp [findOneAndUpdate, hr]
      rcases (List.any_eq_true).mp ih with ⟨x, hx, hqx⟩
      exact Or.inr ⟨x, hx, hqx⟩

theorem fOAU_preserves (flt : CatalogProduct → Bool) (apply : CatalogProduct → CatalogProduct)
    (q : CatalogProduct → Bool) (hq : ∀ r, q r = true → flt r = true → q (apply r) = true) :
    ∀ st : Store, st.any q = true → (findOneAndUpdate flt apply st).any q = true := by
  intro st
  induction st with
  | nil => intro h; simp at h
  | cons r rs ih =>
    intro h
    simp at h
    by_cases hr : flt r
    · rcases h with hqr | ⟨x, hx, hqx⟩
      · simp [findOneAndUpdate, hr, hq r hqr hr]
      · simp [findOneAndUpdate, hr]
        exact Or.inr ⟨x, hx, hqx⟩
    · rcases h with hqr | ⟨x, hx, hqx⟩
      · simp [findOneAndUpdate, hr, hqr]
      · simp [findOneAndUpdate, hr]
        exact Or.inr ((List.any_eq_true).mp (ih (List.any_eq_true.mpr ⟨x, hx, hqx⟩)))

/-! ## Helper lemmas about the walker -/

theorem scrapeProductRun_ok_url (w : World) (link : String) (p : ScrapedListing)
    (h : scrapeProductRun w link = .ok p) : p.sourceUrl = link := by
  unfold scrapeProductRun scrapeProduct at h
  split at h
  · simp at h
  · simp only [] at h
    split at h
    · simp at h
    · simp only [Except.ok.injEq] at h
      subst h
      rfl

theorem mem_walkLinks (w : World) :
    ∀ (links : List String) (acc : List ScrapedListing) (l : ScrapedListing),
      l ∈ links.foldl (fun acc2 link =>
        match scrapeProductRun w link with
        | .ok p => acc2 ++ [p]
        | .error _ => acc2) acc →
      l ∈ acc ∨ ∃ link ∈ links, scrapeProductRun w link = .ok l := by
  intro links
  induction links with
  | nil => intro acc l h; exact Or.inl h
  | cons x xs ih =>
    intro acc l h
    simp only [List.foldl_cons] at h
    rcases hx : scrapeProductRun w x with e | p
    · rw [hx] at h
      rcases ih acc l h with h2 | ⟨link, hlink, hrun⟩
      · exact Or.inl h2
      · exact Or.inr ⟨link, List.mem_cons_of_mem _ hlink, hrun⟩
    · rw [hx] at h
      rcases ih (acc ++ [p]) l h with h2 | ⟨link, hlink, hrun⟩
      · rcases List.mem_append.mp h2 with h3 | h3
        · exact Or.inl h3
        · simp at h3
          subst h3
          exact Or.inr ⟨x, List.mem_cons_self x xs, hx⟩
      · exact Or.inr ⟨link, List.mem_cons_of_mem _ hlink, hrun⟩

theorem walkLinks_run_ok (w : World) (links : List String) (l : ScrapedListing)
    (h : l ∈ walkLinks w links) : scrapeProductRun w l.sourceUrl = .ok l := by
  unfold walkLinks at h
  rcases mem_walkLinks w links [] l h with h2 | ⟨link, _, hrun⟩
  · simp at h2
  · have := scrapeProductRun_ok_url w link l hrun
    rw [this]
    exact hrun

theorem foldl_links_length (limit : Nat) :
    ∀ (hrefs : List String) (acc : List String),
      (List.foldl (fun links h => if links.length < limit && h != "" then links ++ [h] else links)
        acc hrefs).length ≤ max acc.length limit := by
  intro hrefs
  induction hrefs with
  | nil => intro acc; simp
  | cons h t ih =>
    intro acc
    simp only [List.foldl_cons]
    by_cases hc : (acc.length < limit && h != "") = true
    · rw [if_pos hc]
      refine le_trans (ih _) ?_
      simp only [Bool.and_eq_true, decide_eq_true_eq] at hc
      have hlen : (acc ++ [h]).length = acc.length + 1 := by simp
      rw [hlen]
      omega
    · rw [if_neg hc]
      exact ih acc

theorem collectLinks_length_le (hrefs : List String) (limit : Nat) :
    (collectLinks hrefs limit).length ≤ limit := by
  have := foldl_links_length limit hrefs []
  simpa [collectLinks] using this

theorem scrapeCategory_ok_inv (w : World) (catUrl : String) (limit : Nat)
    (ps : List ScrapedListing) (h : scrapeCategory w catUrl limit = .ok ps) :
    ps = walkLinks w (attemptedLinks w catUrl limit) := by
  unfold scrapeCategory at h
  split at h
  · simp at h
  · simp only [Except.ok.injEq] at h
    exact h.symm

/-! ## Helper lemmas about the driver trace and store -/

theorem mem_foldl_append {α β : Type} (f : β → List α) :
    ∀ (ps : List β) (acc : List α) (x : α),
      x ∈ ps.foldl (fun evs p => evs ++ f p) acc → x ∈ acc ∨ ∃ p ∈ ps, x ∈ f p := by
  intro ps
  induction ps with
  | nil => intro acc x h; exact Or.inl h
  | cons p pt ih =>
    intro acc x h
    simp only [List.foldl_cons] at h
    rcases ih (acc ++ f p) x h with h2 | ⟨q, hq, hx⟩
    · rcases List.mem_append.mp h2 with h3 | h3
      · exact Or.inl h3
      · exact Or.inr ⟨p, List.mem_cons_self p pt, h3⟩
    · exact Or.inr ⟨q, List.mem_cons_of_mem _ hq, hx⟩

theorem mem_saveBatchEvents (dw : DriverWorld) (ps : List ScrapedListing) (x : Event)
    (h : x ∈ saveBatchEvents dw ps) :
    ∃ p ∈ ps, x ∈ (if dw.saveFails p then [Event.syncCall p.sourceUrl, Event.syncErr p.name]
                   else [Event.syncCall p.sourceUrl]) := by
  unfold saveBatchEvents at h
  rcases mem_foldl_append
      (fun p => if dw.saveFails p then [Event.syncCall p.sourceUrl, Event.syncErr p.name]
                else [Event.syncCall p.sourceUrl]) ps [] x h with h2 | h2
  · simp at h2
  · exact h2

theorem saveBatchEvents_syncCall (dw : DriverWorld) (ps : List ScrapedListing) (url : String)
    (h : Event.syncCall url ∈ saveBatchEvents dw ps) : ∃ p ∈ ps, p.sourceUrl = url := by
  rcases mem_saveBatchEvents dw ps _ h with ⟨p, hp, hx⟩
  refine ⟨p, hp, ?_⟩
  by_cases hf : dw.saveFails p
  · simp [hf] at hx
    exact hx.symm
  · simp [hf] at hx
    exact hx.symm

theorem runCats_syncCall_mem (dw : DriverWorld) (now : Nat) :
    ∀ (cats : List Category) (st : Store) (url : String),
      Event.syncCall url ∈ (runCats dw now cats st).1 →
      ∃ l : ScrapedListing, scrapeProductRun dw.world url = .ok l := by
  intro cats
  induction cats with
  | nil => intro st url h; simp [runCats] at h
  | cons c rest ih =>
    intro st url h
    unfold runCats at h
    rcases hcat : scrapeCategory dw.world c.url 10 with e | ps
    · rw [hcat] at h
      simp at h
    · rw [hcat] at h
      simp only [List.mem_cons, List.mem_append] at h
      rcases h with h | h | h
      · cases h
      · rcases saveBatchEvents_syncCall dw ps url h with ⟨p, hp, hurl⟩
        have hps := scrapeCategory_ok_inv dw.world c.url 10 ps hcat
        rw [hps] at hp
        have hrun := walkLinks_run_ok dw.world _ p hp
        rw [hurl] at hrun
        exact ⟨p, hrun⟩
      · exact ih _ url h

theorem runCats_events_shape (dw : DriverWorld) (now : Nat) :
    ∀ (cats : List Category) (st : Store) (x : Event),
      x ∈ (runCats dw now cats st).1 →
      (∃ n, x = Event.walkCat n) ∨ (∃ u, x = Event.syncCall u) ∨
        (∃ n, x = Event.syncErr n) := by
  intro cats
  induction cats with
  | nil => intro st x h; simp [runCats] at h
  | cons c rest ih =>
    intro st x h
    unfold runCats at h
    rcases hcat : scrapeCategory dw.world c.url 10 with e | ps
    · rw [hcat] at h
      simp at h
      exact Or.inl ⟨c.name, h⟩
    · rw [hcat] at h
      simp only [List.mem_cons, List.mem_append] at h
      rcases h with h | h | h
      · exact Or.inl ⟨c.name, h⟩
      · rcases mem_saveBatchEvents dw ps x h with ⟨p, _, hx⟩
        by_cases hf : dw.saveFails p
        · simp [hf] at hx
          rcases hx with hx | hx
          · exact Or.inr (Or.inl ⟨p.sourceUrl, hx⟩)
          · exact Or.inr (Or.inr ⟨p.name, hx⟩)
        · simp [hf] at hx
          exact Or.inr (Or.inl ⟨p.sourceUrl, hx⟩)
      · exact ih _ x h

theorem bmSync_establishes (st : Store) (l : ScrapedListing) (cat : String) (now : Nat)
    (hs : l.source = "Backmarket") : hasBmKey (bmSync st l cat now) l.sourceId = true := by
  unfold hasBmKey bmSync
  exact fOAU_establishes _ _ (bmMatches l.sourceId)
    (fun r => by simp [bmMatches, bmApply, hs]) st

theorem bmSync_preserves_key (st : Store) (l : ScrapedListing) (cat : String) (now : Nat)
    (sid : String) (hs : l.source = "Backmarket") (h : hasBmKey st sid = true) :
    hasBmKey (bmSync st l cat now) sid = true := by
  unfold hasBmKey bmSync
  refine fOAU_preserves _ _ (bmMatches sid) ?_ st h
  intro r h1 h2
  simp only [bmMatches, Bool.and_eq_true, beq_iff_eq] at h1 h2 ⊢
  obtain ⟨hr1, hr2⟩ := h1
  obtain ⟨hr3, hr4⟩ := h2
  rw [hr2] at hr4
  have hsid : l.sourceId = sid := by
    simpa using hr4.symm
  constructor
  · simp [bmApply, hs]
  · simp [bmApply, hsid]

theorem saveBatchStore_preserves (dw : DriverWorld) (cat : String) (now : Nat) (sid : String) :
    ∀ (ps : List ScrapedListing) (st : Store),
      hasBmKey st sid = true → (∀ x ∈ ps, x.source = "Backmarket") →
      hasBmKey (saveBatchStore dw cat now ps st) sid = true := by
  intro ps
  induction ps with
  | nil => intro st h _; simpa [saveBatchStore] using h
  | cons p pt ih =>
    intro st h hsrc
    unfold saveBatchStore
    simp only [List.foldl_cons]
    by_cases hf : dw.saveFails p
    · simp only [hf, if_true]
      exact ih st h (fun x hx => hsrc x (List.mem_cons_of_mem _ hx))
    · simp only [hf]
      have h2 : hasBmKey (bmSync st p cat now) sid = true :=
        bmSync_preserves_key st p cat now sid (hsrc p (List.mem_cons_self p pt)) h
      exact ih _ h2 (fun x hx => hsrc x (List.mem_cons_of_mem _ hx))

/-! ## Claim theorems -/

/-- C9: for every category walk with item bound N, at most N product detail
URLs are collected from the listing page even when more are discoverable, so
at most N extraction attempts are made; concretely, with bound 5 against a
listing page carrying 10 discoverable URLs, exactly 5 attempts occur. -/
theorem category_walk_bounded :
    (∀ (w : World) (catUrl : String) (limit : Nat), attemptsCount w catUrl limit ≤ limit) ∧
    (∀ (hrefs : List String) (limit : Nat), (collectLinks hrefs limit).length ≤ limit) ∧
    (wTen.catAnchors "/us/en-us/c/smartphones").length = 10 ∧
    attemptsCount wTen "/us/en-us/c/smartphones" 5 = 5 := by
  refine ⟨?_, ?_, by decide, by decide⟩
  · intro w catUrl limit
    exact collectLinks_length_le _ _
  · intro hrefs limit
    exact collectLinks_length_le _ _

/-- C10: in the Backmarket extraction path a listing whose price text parses
to exactly zero is rejected by the falsiness test on the mandatory price
field with the required data error, exactly like a missing price, even though
the parsed value is a present non null number, and no listing extracted from
that URL ever reaches the persistence loop. -/
theorem zero_price_treated_as_missing (page : RawPage) (url : String) (d : Decimal)
    (hparse : getPrice page.priceText = JsNum.num d) (hz : d.mant = 0) :
    scrapeProduct page url = .error requiredMsg ∧
    getPrice page.priceText ≠ JsNum.null ∧
    (∀ (w : World) (links : List String), w.pageOf url = page →
      ∀ l ∈ walkLinks w links, l.sourceUrl ≠ url) := by
  have hfalsy : numTruthy (extractProduct page).price = false := by
    simp [extractProduct, hparse, numTruthy, hz]
  have herr : scrapeProduct page url = .error requiredMsg := by
    unfold scrapeProduct
    simp [hfalsy]
  refine ⟨herr, by rw [hparse]; simp, ?_⟩
  intro w links hw l hl hurl
  have hrun := walkLinks_run_ok w links l hl
  rw [hurl] at hrun
  unfold scrapeProductRun at hrun
  split at hrun
  · simp at hrun
  · rw [hw, herr] at hrun
    simp at hrun

/-- C10 witness: the zero price page is rejected with the required data
error although its price parsed to the number zero. -/
theorem zero_price_treated_as_missing_witness :
    getPrice pgZeroPrice.priceText = JsNum.num ⟨0, 2⟩ ∧
    scrapeProduct pgZeroPrice "https://bm/p/z" = .error requiredMsg :=
  ⟨by decide,
   (zero_price_treated_as_missing pgZeroPrice "https://bm/p/z" ⟨0, 2⟩ (by decide) rfl).1⟩

/-- C8 counterexample: the claim says that in every extraction an absent
primary price element yields a null price, not zero. In the Newegg extraction
the price expression falls back to the string zero when the element is
absent, so the extracted price is the number zero and not null. -/
theorem price_absent_counterexample :
    neweggParsePrice none = JsNum.num ⟨0, 0⟩ ∧ neweggParsePrice none ≠ JsNum.null := by
  decide

/-- C8 amended: both extractions read the raw price text, strip every
character other than digits and the decimal point, and parse the remainder as
a decimal, so the dollar text parses to 1299.99. In the Backmarket extraction
an absent primary price element yields null and fails the listing, while an
absent secondary original price element does not change whether extraction
succeeds. In the Newegg extraction an absent price element instead parses to
the number zero, and such a zero priced record is dropped by the positive
price filter of the evaluate step. -/
theorem price_parse_amended :
    (getPrice (some "$1,299.99 USD") = JsNum.num ⟨129999, 2⟩ ∧
     neweggParsePrice (some "$1,299.99 USD") = JsNum.num ⟨129999, 2⟩ ∧
     Decimal.toRat ⟨129999, 2⟩ = (129999 : ℚ) / 100) ∧
    getPrice none = JsNum.null ∧
    (∀ (page : RawPage) (url : String), page.priceText = none →
      scrapeProduct page url = .error requiredMsg) ∧
    (∀ (page : RawPage) (url : String),
      (scrapeProduct { page with originalPriceText := none } url).toOption.isSome =
        (scrapeProduct page url).toOption.isSome) ∧
    neweggParsePrice none = JsNum.num ⟨0, 0⟩ ∧
    (∀ (ps : List NeweggProduct) (p : NeweggProduct), p.price = JsNum.num ⟨0, 0⟩ →
      p ∉ neweggEvaluateFilter ps) := by
  refine ⟨⟨by decide, by decide, by norm_num [Decimal.toRat]⟩, by decide, ?_, ?_, by decide, ?_⟩
  · intro page url hnone
    have hfalsy : numTruthy (extractProduct page).price = false := by
      simp [extractProduct, hnone, getPrice, numTruthy]
    unfold scrapeProduct
    simp [hfalsy]
  · intro page url
    unfold scrapeProduct
    simp only []
    have hc : (!strTruthy (extractProduct { page with originalPriceText := none }).name
        || !numTruthy (extractProduct { page with originalPriceText := none }).price)
        = (!strTruthy (extractProduct page).name || !numTruthy (extractProduct page).price) :=
      rfl
    rw [hc]
    by_cases h2 : (!strTruthy (extractProduct page).name
        || !numTruthy (extractProduct page).price) = true
    · rw [if_pos h2, if_pos h2]
    · rw [if_neg h2, if_neg h2]
      rfl
  · intro ps p hp hmem
    have := List.of_mem_filter hmem
    simp [hp, numGtZero] at this

/-- C8 witness: a page whose primary price element is missing is rejected at
extraction with the required data error. -/
theorem price_parse_amended_witness :
    scrapeProduct pgNoPrice "https://bm/p/y" = .error requiredMsg :=
  price_parse_amended.2.2.1 pgNoPrice "https://bm/p/y" rfl

/-- C7: for every extracted listing with a null name or a null price the
persistence call is never invoked for that listing URL: the whole driver run
emits no sync call event for a URL whose page lacks the title element or
whose price element is absent. -/
theorem extraction_drop_precedes_sync (dw : DriverWorld) (now : Nat) (st : Store) (url : String)
    (h : (dw.world.pageOf url).titleText = none ∨
      getPrice (dw.world.pageOf url).priceText = JsNum.null) :
    (scrapeAndSave dw now st).1.count (Event.syncCall url) = 0 := by
  have hrun : ∀ l : ScrapedListing, scrapeProductRun dw.world url ≠ .ok l := by
    intro l hok
    unfold scrapeProductRun scrapeProduct at hok
    split at hok
    · simp at hok
    · simp only [] at hok
      split at hok
      · simp at hok
      · rename_i hcond
        rcases h with h | h
        · have : strTruthy (extractProduct (dw.world.pageOf url)).name = false := by
            simp [extractProduct, h, strTruthy]
          simp [this] at hcond
        · have : numTruthy (extractProduct (dw.world.pageOf url)).price = false := by
            simp [extractProduct, h, numTruthy]
          simp [this] at hcond
  rw [List.count_eq_zero]
  intro hmem
  unfold scrapeAndSave at hmem
  by_cases hl : dw.launchFails
  · simp [hl] at hmem
  · simp only [hl, Bool.false_eq_true, if_false, List.mem_cons, List.mem_append] at hmem
    rcases hmem with hmem | (hmem | hmem) | hmem
    · cases hmem
    · rcases runCats_syncCall_mem dw now categories st url hmem with ⟨l, hok⟩
      exact hrun l hok
    · split at hmem <;> simp at hmem
    · simp at hmem

/-- C7 witness: a run over a world whose only discoverable product page lacks
the price element never invokes the persistence call for that URL. -/
theorem extraction_drop_precedes_sync_witness :
    (scrapeAndSave dw7 3 []).1.count (Event.syncCall "badp") = 0 :=
  extraction_drop_precedes_sync dw7 3 [] "badp" (Or.inr (by decide))

/-- C3 counterexample: the claim says a listing with an empty image list is
discarded before Catalog Sync. On the Backmarket path a page with name and
price but no images extracts successfully with an empty image list, the
driver invokes the persistence call for it, and the store ends up holding a
record with an empty image list. -/
theorem empty_images_reach_sync_counterexample :
    (scrapeProduct pgNoImages uNoImg).toOption = some lNoImg ∧
    lNoImg.images = [] ∧
    (scrapeAndSave dwNoImg 5 []).1.count (Event.syncCall uNoImg) = 1 ∧
    (scrapeAndSave dwNoImg 5 []).2.map (fun r => (r.sourceUrl, r.images)) =
      [(some uNoImg, [])] := by
  decide

/-- C3 amended: a listing whose extracted name or price is falsy is discarded
at extraction before Catalog Sync, and the Newegg save loop skips a listing
without an image; but the Backmarket path never checks the image list, whose
emptiness does not change whether extraction succeeds, so empty image
listings reach persistence there. -/
theorem invalid_listing_drop_amended :
    (∀ (page : RawPage) (url : String),
      strTruthy (extractProduct page).name = false ∨
        numTruthy (extractProduct page).price = false →
      scrapeProduct page url = .error requiredMsg) ∧
    (∀ (st : Store) (p : NeweggProduct) (now : Nat), strTruthy p.image = false →
      neweggSaveOne st p now = st) ∧
    (∀ (page : RawPage) (url : String),
      (scrapeProduct { page with imageSrcs := [] } url).toOption.isSome =
        (scrapeProduct page url).toOption.isSome) := by
  refine ⟨?_, ?_, ?_⟩
  · intro page url h
    unfold scrapeProduct
    rcases h with h | h <;> simp [h]
  · intro st p now himg
    unfold neweggSaveOne neweggGuard
    simp [himg]
  · intro page url
    unfold scrapeProduct
    simp only []
    have hn : (extractProduct { page with imageSrcs := [] }).name = (extractProduct page).name :=
      rfl
    have hp : (extractProduct { page with imageSrcs := [] }).price =
        (extractProduct page).price := rfl
    rw [hn, hp]
    by_cases h2 : (!strTruthy (extractProduct page).name
        || !numTruthy (extractProduct page).price) = true
    · rw [if_pos h2, if_pos h2]
    · rw [if_neg h2, if_neg h2]
      rfl

/-- C3 witness for the amended claim: a page without a title element is
dropped with the required data error, and a Newegg record without an image is
not saved. -/
theorem invalid_listing_drop_amended_witness :
    scrapeProduct pgNoName "https://bm/p/n" = .error requiredMsg ∧
    neweggSaveOne [] { pNew with image := none } 4 = [] :=
  ⟨invalid_listing_drop_amended.1 pgNoName "https://bm/p/n" (Or.inl (by decide)),
   invalid_listing_drop_amended.2.1 [] { pNew with image := none } 4 (by decide)⟩

/-- C1: starting from any store in which the unique compound index invariant
holds for the key, upserting the same Backmarket natural key twice with
different prices leaves exactly one record under that key, and that record
carries the price of the second call. -/
theorem upsert_idempotent_last_write_wins
    (st : Store) (l1 l2 : ScrapedListing) (cat1 cat2 : String) (t1 t2 : Nat)
    (hu : st.countP (bmMatches l1.sourceId) ≤ 1)
    (hs1 : l1.source = "Backmarket") (hs2 : l2.source = "Backmarket")
    (hid : l2.sourceId = l1.sourceId) (_hp : l1.price ≠ l2.price) :
    (bmSync (bmSync st l1 cat1 t1) l2 cat2 t2).countP (bmMatches l1.sourceId) = 1 ∧
    ∀ r ∈ bmSync (bmSync st l1 cat1 t1) l2 cat2 t2,
      bmMatches l1.sourceId r = true → r.price = l2.price := by
  have ha1 : ∀ r, bmMatches l1.sourceId (bmApply l1 cat1 t1 r) = true := fun r => by
    simp [bmMatches, bmApply, hs1]
  have ha2 : ∀ r, bmMatches l1.sourceId (bmApply l2 cat2 t2 r) = true := fun r => by
    simp [bmMatches, bmApply, hs2, hid]
  have h1 : (bmSync st l1 cat1 t1).countP (bmMatches l1.sourceId) = 1 := by
    unfold bmSync
    exact fOAU_countP _ _ ha1 st hu
  constructor
  · unfold bmSync
    rw [hid]
    exact fOAU_countP _ _ ha2 _ (le_of_eq h1)
  · unfold bmSync
    rw [hid]
    exact fOAU_matching _ _ (fun r => r.price = l2.price)
      (fun r => by simp [bmApply]) _ (le_of_eq h1)

/-- C1 witness: two upserts of key A into the empty store, prices 100 then
200, leave one record under the key whose price is 200. -/
theorem upsert_idempotent_last_write_wins_witness :
    (bmSync (bmSync [] bmL1 "Smartphones" 1) bmL2 "Smartphones" 2).countP
      (bmMatches "A") = 1 ∧
    (bmSync (bmSync [] bmL1 "Smartphones" 1) bmL2 "Smartphones" 2).map
      (fun r => r.price) = [JsNum.num ⟨200, 0⟩] :=
  ⟨(upsert_idempotent_last_write_wins [] bmL1 bmL2 "Smartphones" "Smartphones" 1 2
      (by decide) rfl rfl rfl (by decide)).1,
   by decide⟩

/-- The inner save loop commits every listing whose save is not rejected:
an auxiliary induction shared with the C6 claim theorem. -/
theorem saveBatchStore_commits (dw : DriverWorld) (cat : String) (now : Nat)
    (p : ScrapedListing) (hok : dw.saveFails p = false) :
    ∀ (ps : List ScrapedListing) (st : Store), p ∈ ps →
      (∀ x ∈ ps, x.source = "Backmarket") →
      hasBmKey (saveBatchStore dw cat now ps st) p.sourceId = true := by
  intro ps
  induction ps with
  | nil => intro st hmem _; cases hmem
  | cons q qs ih =>
    intro st hmem hsrc
    unfold saveBatchStore
    simp only [List.foldl_cons]
    rcases List.mem_cons.mp hmem with hpq | hmem2
    · subst hpq
      rw [hok]
      simp only [Bool.false_eq_true, if_false]
      have hest := bmSync_establishes st p cat now (hsrc p (List.mem_cons_self _ _))
      exact saveBatchStore_preserves dw cat now p.sourceId qs _ hest
        (fun x hx => hsrc x (List.mem_cons_of_mem _ hx))
    · by_cases hf : dw.saveFails q
      · rw [hf]
        simp only [if_true]
        exact ih st hmem2 (fun x hx => hsrc x (List.mem_cons_of_mem _ hx))
      · simp only [hf, Bool.false_eq_true, if_false]
        exact ih _ hmem2 (fun x hx => hsrc x (List.mem_cons_of_mem _ hx))

/-- C6: a rejected persistence call for one listing of a batch is caught and
does not stop the loop: every other listing of the batch whose save is not
rejected ends up committed under its natural key. -/
theorem batch_partial_failure_isolated
    (dw : DriverWorld) (cat : String) (now : Nat) (ps : List ScrapedListing) (st : Store)
    (p : ScrapedListing) (hmem : p ∈ ps) (hok : dw.saveFails p = false)
    (hsrc : ∀ x ∈ ps, x.source = "Backmarket") :
    hasBmKey (saveBatchStore dw cat now ps st) p.sourceId = true :=
  saveBatchStore_commits dw cat now p hok ps st hmem hsrc

/-- C6 witness: in a batch of three listings where exactly the save of the
second is rejected, the first and the third are committed and the second is
not. -/
theorem batch_partial_failure_isolated_witness :
    hasBmKey (saveBatchStore dw6 "Smartphones" 0 [bmLA, bmLB, bmLC] []) "KC" = true ∧
    hasBmKey (saveBatchStore dw6 "Smartphones" 0 [bmLA, bmLB, bmLC] []) "KA" = true ∧
    hasBmKey (saveBatchStore dw6 "Smartphones" 0 [bmLA, bmLB, bmLC] []) "KB" = false :=
  ⟨batch_partial_failure_isolated dw6 "Smartphones" 0 [bmLA, bmLB, bmLC] [] bmLC
      (by decide) (by decide) (by decide),
   by decide, by decide⟩

/-- C2 counterexample: the claim says every sync path performs its find or
create keyed on the pair of source tag and source-native identifier. The
store already holds a record under the natural key newegg N123; syncing a
Newegg listing whose URL final path segment is N123 but whose full URL
differs appends a second record, with no source-native identifier at all,
instead of updating the keyed one, while the natural key sync of the spec
updates in place. -/
theorem sync_key_counterexample :
    rec0.source = "newegg" ∧
    rec0.sourceId = some (lastPathSegment (pNew.url.getD "")) ∧
    rec0.sourceUrl ≠ pNew.url ∧
    (neweggSaveOne [rec0] pNew 9).length = 2 ∧
    (neweggSaveOne [rec0] pNew 9).map (fun r => r.sourceId) = [some "N123", none] ∧
    (specNaturalKeySync [rec0] "newegg" "N123" (neweggApply pNew 9)).length = 1 := by
  decide

/-- C2 amended: the Backmarket sync path is exactly the find or create keyed
on the pair of source tag and source-native identifier described by the spec,
with the update stamping updatedAt; the Newegg sync path instead keys on the
source URL alone and never writes a source-native identifier, so a record
stored under a matching natural key but a different URL is not updated and a
new record is appended. -/
theorem sync_key_amended :
    (∀ (st : Store) (l : ScrapedListing) (cat : String) (now : Nat),
      bmSync st l cat now = specNaturalKeySync st "Backmarket" l.sourceId (bmApply l cat now)) ∧
    (∀ (l : ScrapedListing) (cat : String) (now : Nat) (r : CatalogProduct),
      (bmApply l cat now r).updatedAt = now) ∧
    (∀ (p : NeweggProduct) (now : Nat) (r : CatalogProduct),
      (neweggApply p now r).sourceId = r.sourceId) ∧
    (neweggSaveOne [rec0] pNew 9).length = [rec0].length + 1 := by
  exact ⟨fun _ _ _ _ => rfl, fun _ _ _ _ => rfl, fun _ _ _ => rfl, by decide⟩

/-- C4 counterexample: the claim says a whole category exception is caught
and the loop advances to the next category. With the Laptops listing page
failing, the Laptops walk is entered, the Tablets category is never walked
and its product p3, which was scrapeable, is never synced; only the
Smartphones product reaches the store. -/
theorem category_failure_counterexample :
    w4.catNavFails "/us/en-us/c/laptops" = true ∧
    (scrapeCategory w4 "/us/en-us/c/tablets" 10).toOption = some [pTab] ∧
    (scrapeAndSave dw4 7 []).1.count (Event.walkCat "Laptops") = 1 ∧
    (scrapeAndSave dw4 7 []).1.count (Event.walkCat "Tablets") = 0 ∧
    (scrapeAndSave dw4 7 []).1.count (Event.syncCall "p3") = 0 ∧
    (scrapeAndSave dw4 7 []).2.map (fun r => r.sourceUrl) = [some "p1"] := by
  decide

/-- C4 amended: a category whose walk throws is caught at the driver level,
recorded in the aborted flag that triggers the run error log, but the per
category loop terminates there: exactly the categories up to and including
the failing one are walked and the categories after it are not. -/
theorem category_failure_amended (dw : DriverWorld) (now : Nat) (st : Store)
    (cs1 : List Category) (c : Category) (cs2 : List Category)
    (h1 : ∀ x ∈ cs1, dw.world.catNavFails x.url = false)
    (h2 : dw.world.catNavFails c.url = true) :
    (runCats dw now (cs1 ++ c :: cs2) st).2.2 = true ∧
    walked (runCats dw now (cs1 ++ c :: cs2) st).1 = cs1.map Category.name ++ [c.name] := by
  induction cs1 generalizing st with
  | nil =>
    simp only [List.nil_append]
    unfold runCats scrapeCategory
    rw [h2]
    simp [walked]
  | cons x xs ih =>
    have hx : dw.world.catNavFails x.url = false := h1 x (List.mem_cons_self _ _)
    have h1t : ∀ y ∈ xs, dw.world.catNavFails y.url = false :=
      fun y hy => h1 y (List.mem_cons_of_mem _ hy)
    simp only [List.cons_append]
    unfold runCats
    rw [show scrapeCategory dw.world x.url 10
        = .ok (walkLinks dw.world (attemptedLinks dw.world x.url 10)) by
      unfold scrapeCategory
      rw [hx]
      simp]
    simp only []
    have hwsb : walked (saveBatchEvents dw
        (walkLinks dw.world (attemptedLinks dw.world x.url 10))) = [] := by
      unfold walked
      rw [List.filterMap_eq_nil_iff]
      intro e he
      rcases mem_saveBatchEvents dw _ e he with ⟨p, _, hp⟩
      by_cases hf : dw.saveFails p
      · simp [hf] at hp
        rcases hp with hp | hp <;> simp [hp]
      · simp [hf] at hp
        simp [hp]
    have hrest := ih (saveBatchStore dw x.name now
      (walkLinks dw.world (attemptedLinks dw.world x.url 10)) st) h1t
    refine ⟨hrest.1, ?_⟩
    unfold walked at hwsb hrest ⊢
    simp only [List.filterMap_cons, List.filterMap_append, hwsb, List.nil_append]
    rw [hrest.2]
    simp

/-- C4 witness for the amended claim: over the fixed category list with the
Laptops walk failing, the run aborts after walking Smartphones and Laptops
and never walks Tablets. -/
theorem category_failure_amended_witness :
    (runCats dw4 7 ([catSmartphones] ++ catLaptops :: [catTablets]) []).2.2 = true ∧
    walked (runCats dw4 7 ([catSmartphones] ++ catLaptops :: [catTablets]) []).1 =
      [catSmartphones].map Category.name ++ [catLaptops.name] :=
  category_failure_amended dw4 7 [] [catSmartphones] catLaptops [catTablets]
    (by decide) (by decide)

/-- C5: for every run whose browser launch succeeds, whatever category walks
fail and whatever saves are rejected, the underlying browser close is invoked
exactly once and the close method is entered exactly once. -/
theorem browser_closed_once (dw : DriverWorld) (now : Nat) (st : Store)
    (h : dw.launchFails = false) :
    (scrapeAndSave dw now st).1.count Event.browserClose = 1 ∧
    (scrapeAndSave dw now st).1.count Event.closeCall = 1 := by
  have hbc : (runCats dw now categories st).1.count Event.browserClose = 0 := by
    rw [List.count_eq_zero]
    intro hmem
    rcases runCats_events_shape dw now categories st _ hmem with ⟨n, hn⟩ | ⟨u, hu⟩ | ⟨n, hn⟩ <;>
      simp_all
  have hcc : (runCats dw now categories st).1.count Event.closeCall = 0 := by
    rw [List.count_eq_zero]
    intro hmem
    rcases runCats_events_shape dw now categories st _ hmem with ⟨n, hn⟩ | ⟨u, hu⟩ | ⟨n, hn⟩ <;>
      simp_all
  unfold scrapeAndSave
  rw [h]
  simp only [Bool.false_eq_true, if_false]
  constructor
  · rw [List.count_cons, List.count_append, List.count_append, hbc]
    split <;> simp [List.count_cons]
  · rw [List.count_cons, List.count_append, List.count_append, hcc]
    split <;> simp [List.count_cons]

/-- C5 witness: a run in which one product navigation fails, one save is
rejected and the Laptops category walk throws still closes the browser
exactly once. -/
theorem browser_closed_once_witness :
    (scrapeAndSave dw5 11 []).1.count Event.browserClose = 1 :=
  (browser_closed_once dw5 11 [] rfl).1

end CopIt

